import Mathlib

/-!
# Range and iterator concepts of range-v3

A shallow embedding of `include/range/v3/utility/iterator_concepts.hpp` and
`include/range/v3/range_concepts.hpp`.

* A C++ type is a term of `CppType`.
* Everything the two headers take from other headers (associated-type aliases, the
  typing of expressions in `requires` clauses, the primitive concepts of
  `utility/concepts.hpp`, the customisation points) is a field of `Env`.  A type alias or
  an expression that does not substitute is `none`; a concept whose definition does not
  substitute is `false`.
* Every `CONCEPT_def` becomes a `Bool`-valued function of the environment and the template
  arguments, written down conjunct by conjunct from the source.
-/

namespace ranges

/-! ## Types -/

/-- C++ types, as far as the two headers tell them apart.  A type is written in one way
only: `Same` compares two terms as they stand. -/
inductive CppType where
  | int : CppType
  | ptrdiff_t : CppType
  | size_t : CppType
  | cls (id : Nat) : CppType
  | ptr (t : CppType) : CppType
  | const (t : CppType) : CppType
  | volatile (t : CppType) : CppType
  | lref (t : CppType) : CppType
  | rref (t : CppType) : CppType
  | input_iterator_tag : CppType
  | forward_iterator_tag : CppType
  | bidirectional_iterator_tag : CppType
  | random_access_iterator_tag : CppType
  | contiguous_iterator_tag : CppType
  | view_base : CppType
  | reverse_iterator (t : CppType) : CppType
  | initializer_list (t : CppType) : CppType
  | set (key compare alloc : CppType) : CppType
  | multiset (key compare alloc : CppType) : CppType
  | unordered_set (key hash pred alloc : CppType) : CppType
  | unordered_multiset (key hash pred alloc : CppType) : CppType
  deriving DecidableEq, Repr

open CppType

/-- The type `T &`, with reference collapsing. -/
def add_lvalue_reference : CppType → CppType
  | lref t => lref t
  | rref t => lref t
  | t => lref t

/-- The type `T &&`, with reference collapsing. -/
def add_rvalue_reference : CppType → CppType
  | lref t => lref t
  | rref t => rref t
  | t => rref t

/-- The type `T const`; a reference type has no top-level qualifier. -/
def add_const : CppType → CppType
  | lref t => lref t
  | rref t => rref t
  | const t => const t
  | t => const t

/-- The trait `std::remove_reference`. -/
def remove_reference : CppType → CppType
  | lref t => t
  | rref t => t
  | t => t

/-- The trait `std::remove_cv`. -/
def remove_cv : CppType → CppType
  | const t => remove_cv t
  | volatile t => remove_cv t
  | t => t

/-- The alias `uncvref_t<T>`, that is `remove_cv_t<remove_reference_t<T>>`. -/
def uncvref_t (T : CppType) : CppType :=
  remove_cv (remove_reference T)

/-- The trait `std::is_lvalue_reference`. -/
def is_lvalue_reference : CppType → Bool
  | lref _ => true
  | _ => false

/-- The concept `Same<T, U>`: the two types are one type. -/
def Same (T U : CppType) : Bool :=
  decide (T = U)

/-- How many `std::reverse_iterator` layers a type is nested in, looking through
qualifiers and references. -/
def reverse_depth : CppType → Nat
  | reverse_iterator t => reverse_depth t + 1
  | const t => reverse_depth t
  | volatile t => reverse_depth t
  | lref t => reverse_depth t
  | rref t => reverse_depth t
  | _ => 0

/-! ## The environment -/

/-- What the two headers take from the rest of the library and from the program being
compiled.  Operand types of expressions carry the value category the way `decltype((e))`
does: `T &` for an lvalue, `T &&` for an xvalue, `T` for a prvalue. -/
structure Env where
  /-- The alias `reference_t<I>`. -/
  reference_t : CppType → Option CppType
  /-- The alias `value_type_t<I>`. -/
  value_type_t : CppType → Option CppType
  /-- The alias `rvalue_reference_t<I>`. -/
  rvalue_reference_t : CppType → Option CppType
  /-- The alias `iter_common_reference_t<I>`. -/
  iter_common_reference_t : CppType → Option CppType
  /-- The alias `difference_type_t<I>`. -/
  difference_type_t : CppType → Option CppType
  /-- The alias `iterator_category_t<I>`. -/
  iterator_category_t : CppType → Option CppType
  /-- The alias `iterator_t<T>`. -/
  iterator_t : CppType → Option CppType
  /-- The alias `sentinel_t<T>`. -/
  sentinel_t : CppType → Option CppType
  /-- The alias `range_value_type_t<T>`. -/
  range_value_type_t : CppType → Option CppType
  /-- The alias `range_reference_t<T>`. -/
  range_reference_t : CppType → Option CppType
  /-- The type of `*e`. -/
  deref : CppType → Option CppType
  /-- The type of `++e`. -/
  pre_increment : CppType → Option CppType
  /-- The type of `e++`. -/
  post_increment : CppType → Option CppType
  /-- The type of `--e`. -/
  pre_decrement : CppType → Option CppType
  /-- The type of `e--`. -/
  post_decrement : CppType → Option CppType
  /-- The type of `a + b`. -/
  plus : CppType → CppType → Option CppType
  /-- The type of `a - b`. -/
  minus : CppType → CppType → Option CppType
  /-- The type of `a += b`. -/
  plus_assign : CppType → CppType → Option CppType
  /-- The type of `a -= b`. -/
  minus_assign : CppType → CppType → Option CppType
  /-- The type of `a[b]`. -/
  subscript : CppType → CppType → Option CppType
  /-- The type of `a = b`. -/
  assign : CppType → CppType → Option CppType
  /-- Whether `const_cast<To>(e)` is valid for an operand of the second type. -/
  const_cast : CppType → CppType → Bool
  /-- The type of `ranges::end(e)`. -/
  ranges_end : CppType → Option CppType
  /-- The type of `size(e)`. -/
  size : CppType → Option CppType
  /-- The type of `data(e)`. -/
  data : CppType → Option CppType
  /-- The concept `CommonReference<T, U>`. -/
  CommonReference : CppType → CppType → Bool
  /-- The concept `Integral<T>`. -/
  Integral : CppType → Bool
  /-- The concept `Semiregular<T>`. -/
  Semiregular : CppType → Bool
  /-- The concept `Regular<T>`. -/
  Regular : CppType → Bool
  /-- The concept `WeaklyEqualityComparableWith<T, U>`. -/
  WeaklyEqualityComparableWith : CppType → CppType → Bool
  /-- The concept `StrictTotallyOrdered<T>`. -/
  StrictTotallyOrdered : CppType → Bool
  /-- The concept `DerivedFrom<T, U>`. -/
  DerivedFrom : CppType → CppType → Bool
  /-- The concept `Movable<T>`. -/
  Movable : CppType → Bool
  /-- The concept `DefaultConstructible<T>`. -/
  DefaultConstructible : CppType → Bool
  /-- The concept `CopyConstructible<T>`. -/
  CopyConstructible : CppType → Bool
  /-- The concept `Relation<F, T, U>`. -/
  Relation : CppType → CppType → CppType → Bool
  /-- The struct `enable_view<T>`: `none` while it is the empty primary template, `some b`
  once a specialisation makes it a trait of value `b`. -/
  enable_view : CppType → Option Bool
  /-- The value of `disable_sized_range<T>`. -/
  disable_sized_range : CppType → Bool
  /-- The value of `disable_sized_sentinel<S, I>` as the primary template and the
  specialisations declared outside `iterator_concepts.hpp` give it. -/
  disable_sized_sentinel : CppType → CppType → Bool
  /-- Whether a specialisation of `disable_sized_sentinel` declared outside
  `iterator_concepts.hpp` matches `<S, I>` and is selected over the partial specialisation
  for two reverse iterators at the end of that header: an explicit specialisation, or a
  partial one that is more specialised. -/
  disable_sized_sentinel_specialized : CppType → CppType → Bool
  /-- Whether `__GLIBCXX__` is defined. -/
  glibcxx : Bool
  /-- The value of `_LIBCPP_VERSION`, when it is defined. -/
  libcpp_version : Option Nat

/-- A condition on a type that has to substitute first. -/
def holds (o : Option CppType) (p : CppType → Bool) : Bool :=
  match o with
  | some t => p t
  | none => false

/-! ## Iterator concepts (`utility/iterator_concepts.hpp`) -/

/-- The concept `Readable<I>`. -/
def Readable (E : Env) (I : CppType) : Bool :=
  holds (E.reference_t I) (fun r => holds (E.value_type_t I) (fun v =>
    holds (E.rvalue_reference_t I) (fun rr =>
      E.CommonReference (add_rvalue_reference r) (add_lvalue_reference v) &&
      E.CommonReference (add_rvalue_reference r) (add_rvalue_reference rr) &&
      E.CommonReference (add_rvalue_reference rr) (add_lvalue_reference (add_const v)))))

/-- The concept `Writable<Out, T>`: the four assignments through `o`, declared `Out &&`,
of `static_cast<T &&>(t)`. -/
def Writable (E : Env) (Out T : CppType) : Bool :=
  let t := add_rvalue_reference T
  let target := E.reference_t Out |>.map (fun r => add_rvalue_reference (add_const r))
  holds (E.deref (add_lvalue_reference Out)) (fun d => (E.assign d t).isSome) &&
  holds (E.deref (add_rvalue_reference Out)) (fun d => (E.assign d t).isSome) &&
  holds target (fun c => holds (E.deref (add_lvalue_reference Out)) (fun d =>
    E.const_cast c d && (E.assign c t).isSome)) &&
  holds target (fun c => holds (E.deref (add_rvalue_reference Out)) (fun d =>
    E.const_cast c d && (E.assign c t).isSome))

/-- The concept `WeaklyIncrementable<I>`. -/
def WeaklyIncrementable (E : Env) (I : CppType) : Bool :=
  ((E.difference_type_t I).isSome &&
    (E.pre_increment (add_lvalue_reference I)).isSome &&
    (E.post_increment (add_lvalue_reference I)).isSome &&
    holds (E.pre_increment (add_lvalue_reference I)) (fun t => Same (add_lvalue_reference I) t)) &&
  holds (E.difference_type_t I) E.Integral &&
  E.Semiregular I

/-- The concept `Incrementable<I>`. -/
def Incrementable (E : Env) (I : CppType) : Bool :=
  holds (E.post_increment (add_lvalue_reference I)) (fun t => Same I t) &&
  E.Regular I && WeaklyIncrementable E I

/-- The concept `Iterator<I>`. -/
def Iterator (E : Env) (I : CppType) : Bool :=
  (E.deref (add_lvalue_reference I)).isSome &&
  WeaklyIncrementable E I

/-- The concept `Sentinel<S, I>`. -/
def Sentinel (E : Env) (S I : CppType) : Bool :=
  E.Semiregular S && Iterator E I &&
  E.WeaklyEqualityComparableWith S I

/-- The condition of the block that specialises `disable_sized_sentinel` for reverse
iterators: `defined(__GLIBCXX__) || (defined(_LIBCPP_VERSION) && _LIBCPP_VERSION <= 3900)`. -/
def reverse_iterator_workaround (E : Env) : Bool :=
  E.glibcxx || (match E.libcpp_version with
    | some v => decide (v ≤ 3900)
    | none => false)

/-- The `requires` clause of `SizedSentinel<S, I>`, on `S const &s` and `I const &i`. -/
def SizedSentinel_requires (E : Env) (S I : CppType) : Bool :=
  let s := add_lvalue_reference (add_const S)
  let i := add_lvalue_reference (add_const I)
  (E.minus s i).isSome &&
  (E.minus i s).isSome &&
  holds (E.difference_type_t I) (fun d => holds (E.minus s i) (fun t => Same d t)) &&
  holds (E.difference_type_t I) (fun d => holds (E.minus i s) (fun t => Same d t))

mutual

/-- The concept `SizedSentinel<S, I>`. -/
def SizedSentinel (E : Env) (S I : CppType) : Bool :=
  SizedSentinel_requires E S I &&
  Sentinel E S I &&
  !disable_sized_sentinel E (uncvref_t S) (uncvref_t I)
termination_by 2 * (reverse_depth S + reverse_depth I) + 1
decreasing_by
  have hcv : ∀ T : CppType, reverse_depth (remove_cv T) = reverse_depth T := by
    intro T
    induction T <;> simp_all [remove_cv, reverse_depth]
  have hS : reverse_depth (uncvref_t S) = reverse_depth S := by
    unfold uncvref_t
    rw [hcv]
    cases S <;> simp [remove_reference, reverse_depth]
  have hI : reverse_depth (uncvref_t I) = reverse_depth I := by
    unfold uncvref_t
    rw [hcv]
    cases I <;> simp [remove_reference, reverse_depth]
  omega

/-- The value of `disable_sized_sentinel<S, I>`: for two reverse iterators, where the
workaround is compiled in and no specialisation declared elsewhere is selected over it,
`meta::not_c<SizedSentinel<I, S>>` on the base iterators. -/
def disable_sized_sentinel (E : Env) : CppType → CppType → Bool
  | reverse_iterator S, reverse_iterator I =>
    if reverse_iterator_workaround E &&
        !E.disable_sized_sentinel_specialized (reverse_iterator S) (reverse_iterator I) then
      !SizedSentinel E I S
    else E.disable_sized_sentinel (reverse_iterator S) (reverse_iterator I)
  | S, I => E.disable_sized_sentinel S I
termination_by S I => 2 * (reverse_depth S + reverse_depth I)
decreasing_by
  simp only [reverse_depth]
  omega

end

/-- The value of `SizedSentinel<S, I>` as far as `n` nested instantiations of the concept
decide it: `none` when deciding it takes more. -/
def SizedSentinel_within (E : Env) : Nat → CppType → CppType → Option Bool
  | 0, _, _ => none
  | n + 1, S, I =>
    let disabled : Option Bool :=
      match uncvref_t S, uncvref_t I with
      | reverse_iterator S', reverse_iterator I' =>
        if reverse_iterator_workaround E &&
            !E.disable_sized_sentinel_specialized (reverse_iterator S')
              (reverse_iterator I') then
          (SizedSentinel_within E n I' S').map (fun b => !b)
        else some (E.disable_sized_sentinel (reverse_iterator S') (reverse_iterator I'))
      | S', I' => some (E.disable_sized_sentinel S' I')
    disabled.map (fun d => SizedSentinel_requires E S I && Sentinel E S I && !d)

/-- The concept `OutputIterator<Out, T>`. -/
def OutputIterator (E : Env) (Out T : CppType) : Bool :=
  holds (E.post_increment (add_lvalue_reference Out)) (fun p => holds (E.deref p) (fun d =>
    (E.assign d (add_rvalue_reference T)).isSome)) &&
  Iterator E Out && Writable E Out T

/-- The concept `InputIterator<I>`. -/
def InputIterator (E : Env) (I : CppType) : Bool :=
  Iterator E I && Readable E I &&
  holds (E.iterator_category_t I) (fun c => E.DerivedFrom c input_iterator_tag)

/-- The concept `ForwardIterator<I>`. -/
def ForwardIterator (E : Env) (I : CppType) : Bool :=
  InputIterator E I && Incrementable E I &&
  Sentinel E I I &&
  holds (E.iterator_category_t I) (fun c => E.DerivedFrom c forward_iterator_tag)

/-- The concept `BidirectionalIterator<I>`. -/
def BidirectionalIterator (E : Env) (I : CppType) : Bool :=
  ((E.pre_decrement (add_lvalue_reference I)).isSome &&
    (E.post_decrement (add_lvalue_reference I)).isSome &&
    holds (E.pre_decrement (add_lvalue_reference I)) (fun t => Same (add_lvalue_reference I) t) &&
    holds (E.post_decrement (add_lvalue_reference I)) (fun t => Same I t)) &&
  ForwardIterator E I &&
  holds (E.iterator_category_t I) (fun c => E.DerivedFrom c bidirectional_iterator_tag)

/-- The concept `RandomAccessIterator<I>`. -/
def RandomAccessIterator (E : Env) (I : CppType) : Bool :=
  holds (E.difference_type_t I) (fun D =>
    let i := add_lvalue_reference I
    let n := add_lvalue_reference D
    (E.plus i n).isSome &&
    (E.plus n i).isSome &&
    (E.minus i n).isSome &&
    (E.plus_assign i n).isSome &&
    (E.minus_assign i n).isSome &&
    holds (E.plus i n) (fun t => Same t I) &&
    holds (E.plus n i) (fun t => Same t I) &&
    holds (E.minus i n) (fun t => Same t I) &&
    holds (E.plus_assign i n) (fun t => Same t (add_lvalue_reference I)) &&
    holds (E.minus_assign i n) (fun t => Same t (add_lvalue_reference I)) &&
    holds (E.subscript i n) (fun t => holds (E.reference_t I) (fun r => Same t r))) &&
  BidirectionalIterator E I &&
  E.StrictTotallyOrdered I &&
  SizedSentinel E I I &&
  holds (E.iterator_category_t I) (fun c => E.DerivedFrom c random_access_iterator_tag)

/-- The concept `ContiguousIterator<I>`. -/
def ContiguousIterator (E : Env) (I : CppType) : Bool :=
  RandomAccessIterator E I &&
  holds (E.iterator_category_t I) (fun c => E.DerivedFrom c contiguous_iterator_tag) &&
  holds (E.reference_t I) is_lvalue_reference &&
  holds (E.value_type_t I) (fun v => holds (E.reference_t I) (fun r => Same v (uncvref_t r)))

/-- The concept `SinglePass<I>`. -/
def SinglePass (E : Env) (I : CppType) : Bool :=
  Iterator E I && !ForwardIterator E I

/-! ## Range concepts (`range_concepts.hpp`) -/

/-- The concept `Range<T>`. -/
def Range (E : Env) (T : CppType) : Bool :=
  (E.ranges_end (add_lvalue_reference T)).isSome

/-- The concept `OutputRange<T, V>`. -/
def OutputRange (E : Env) (T V : CppType) : Bool :=
  Range E T && holds (E.iterator_t T) (fun I => OutputIterator E I V)

/-- The concept `InputRange<T>`. -/
def InputRange (E : Env) (T : CppType) : Bool :=
  Range E T && holds (E.iterator_t T) (InputIterator E)

/-- The concept `ForwardRange<T>`. -/
def ForwardRange (E : Env) (T : CppType) : Bool :=
  InputRange E T && holds (E.iterator_t T) (ForwardIterator E)

/-- The concept `BidirectionalRange<T>`. -/
def BidirectionalRange (E : Env) (T : CppType) : Bool :=
  ForwardRange E T && holds (E.iterator_t T) (BidirectionalIterator E)

/-- The concept `RandomAccessRange<T>`. -/
def RandomAccessRange (E : Env) (T : CppType) : Bool :=
  BidirectionalRange E T && holds (E.iterator_t T) (RandomAccessIterator E)

/-- The alias `detail::data_reference_t<Rng>`, `decltype(*data(std::declval<Rng&>()))`. -/
def data_reference_t (E : Env) (Rng : CppType) : Option CppType :=
  match E.data (add_lvalue_reference Rng) with
  | some p => E.deref p
  | none => none

/-- The alias `detail::element_t<Rng>`. -/
def element_t (E : Env) (Rng : CppType) : Option CppType :=
  (data_reference_t E Rng).map remove_reference

/-- The concept `ContiguousRange<T>`. -/
def ContiguousRange (E : Env) (T : CppType) : Bool :=
  RandomAccessRange E T &&
  holds (E.range_value_type_t T) (fun v => holds (element_t E T) (fun e => Same v (remove_cv e))) &&
  holds (data_reference_t E T) (fun d => holds (E.range_reference_t T) (fun r => Same d r))

/-- The concept `BoundedRange<T>`. -/
def BoundedRange (E : Env) (T : CppType) : Bool :=
  Range E T &&
  holds (E.iterator_t T) (fun i => holds (E.sentinel_t T) (fun s => Same i s))

/-- The concept `SizedRange<T>`. -/
def SizedRange (E : Env) (T : CppType) : Bool :=
  ((E.size (add_lvalue_reference T)).isSome &&
    holds (E.size (add_lvalue_reference T)) E.Integral) &&
  Range E T && !E.disable_sized_range (uncvref_t T)

/-- The compile-time boolean `detail::view_like<T>`: whether iterating `T` and `T const`
gives one reference type, and `true` when that comparison does not substitute. -/
def view_like (E : Env) (T : CppType) : Bool :=
  match E.iterator_t T, E.iterator_t (add_const T) with
  | some i, some ci =>
    (match E.reference_t i, E.reference_t ci with
      | some r, some cr => decide (r = cr)
      | _, _ => true)
  | _, _ => true

/-- The value of `detail::view_predicate_<T>`: `false` in the five explicit
specialisations, else `enable_view<T>` when that is a trait, else the default of
`view_like<T>() || DerivedFrom<T, view_base>`. -/
def view_predicate_ (E : Env) : CppType → Bool
  | .initializer_list _ => false
  | .set _ _ _ => false
  | .multiset _ _ _ => false
  | .unordered_set _ _ _ _ => false
  | .unordered_multiset _ _ _ _ => false
  | T =>
    match E.enable_view T with
    | some b => b
    | none => view_like E T || E.DerivedFrom T view_base

/-- The concept `View<T>`. -/
def View (E : Env) (T : CppType) : Bool :=
  Range E T && E.Movable T && E.DefaultConstructible T &&
  view_predicate_ E T

/-- The concept `OutputView<T, V>`. -/
def OutputView (E : Env) (T V : CppType) : Bool :=
  View E T && OutputRange E T V

/-- The concept `InputView<T>`. -/
def InputView (E : Env) (T : CppType) : Bool :=
  View E T && InputRange E T

/-- The concept `ForwardView<T>`. -/
def ForwardView (E : Env) (T : CppType) : Bool :=
  View E T && ForwardRange E T

/-- The concept `BidirectionalView<T>`. -/
def BidirectionalView (E : Env) (T : CppType) : Bool :=
  View E T && BidirectionalRange E T

/-- The concept `RandomAccessView<T>`. -/
def RandomAccessView (E : Env) (T : CppType) : Bool :=
  View E T && RandomAccessRange E T

/-- The concept `ContiguousView<T>`. -/
def ContiguousView (E : Env) (T : CppType) : Bool :=
  RandomAccessView E T && ContiguousRange E T

/-- The concept `BoundedView<T>`. -/
def BoundedView (E : Env) (T : CppType) : Bool :=
  View E T && BoundedRange E T

/-- The concept `SizedView<T>`. -/
def SizedView (E : Env) (T : CppType) : Bool :=
  View E T && SizedRange E T

/-- The value of `detail::is_view_<T>`, which the deprecated alias `is_view` names. -/
def is_view_ (E : Env) (T : CppType) : Bool :=
  View E T

/-- The value of `detail::is_range_<T>`. -/
def is_range_ (E : Env) (T : CppType) : Bool :=
  Range E T

/-! ## Concept structs, tags and `tag_of` -/

/-- The structs `XConcept` that `CONCEPT_def` declares next to each concept `X`, for the
concepts that the tags and the indirect callable concepts name. -/
inductive Concept where
  | InputIteratorConcept
  | ForwardIteratorConcept
  | BidirectionalIteratorConcept
  | RandomAccessIteratorConcept
  | ContiguousIteratorConcept
  | SentinelConcept
  | SizedSentinelConcept
  | RelationConcept
  | RangeConcept
  | InputRangeConcept
  | ForwardRangeConcept
  | BidirectionalRangeConcept
  | RandomAccessRangeConcept
  | ContiguousRangeConcept
  | BoundedRangeConcept
  | SizedRangeConcept
  | ViewConcept
  | BoundedViewConcept
  | SizedViewConcept
  deriving DecidableEq, Repr

open Concept

/-- Modelled from the spec: `concepts::is_satisfied_by<Concept, Ts...>` of
`utility/concepts.hpp`, the compile-time boolean telling whether the concept behind a
concept struct holds of the arguments; it is `false` when their number is not the
concept's. -/
def is_satisfied_by (E : Env) : Concept → List CppType → Bool
  | InputIteratorConcept, [I] => InputIterator E I
  | ForwardIteratorConcept, [I] => ForwardIterator E I
  | BidirectionalIteratorConcept, [I] => BidirectionalIterator E I
  | RandomAccessIteratorConcept, [I] => RandomAccessIterator E I
  | ContiguousIteratorConcept, [I] => ContiguousIterator E I
  | SentinelConcept, [S, I] => Sentinel E S I
  | SizedSentinelConcept, [S, I] => SizedSentinel E S I
  | RelationConcept, [F, T, U] => E.Relation F T U
  | RangeConcept, [T] => Range E T
  | InputRangeConcept, [T] => InputRange E T
  | ForwardRangeConcept, [T] => ForwardRange E T
  | BidirectionalRangeConcept, [T] => BidirectionalRange E T
  | RandomAccessRangeConcept, [T] => RandomAccessRange E T
  | ContiguousRangeConcept, [T] => ContiguousRange E T
  | BoundedRangeConcept, [T] => BoundedRange E T
  | SizedRangeConcept, [T] => SizedRange E T
  | ViewConcept, [T] => View E T
  | BoundedViewConcept, [T] => BoundedView E T
  | SizedViewConcept, [T] => SizedView E T
  | _, _ => false

/-- Modelled from the spec: `concepts::tag<Concept, Base>` of `utility/concepts.hpp`, a
named tag for dispatch: an empty struct that carries a concept struct and, when a base
is given, derives from the base tag. -/
inductive tag where
  | root (c : Concept) : tag
  | derived (c : Concept) (base : tag) : tag
  deriving DecidableEq, Repr

/-- The concept struct a tag carries. -/
def tag.concept : tag → Concept
  | root c => c
  | derived c _ => c

/-- The base tag a tag derives from, when it has one. -/
def tag.base : tag → Option tag
  | root _ => none
  | derived _ b => some b

/-- The tags a tag converts to: itself, its base, the base of its base, and so on. -/
def tag.bases : tag → List tag
  | root c => [root c]
  | derived c b => derived c b :: b.bases

/-- Modelled from the spec: `concepts::tag_of<Concepts, Ts...>` of `utility/concepts.hpp`,
which selects the first concept of the list that the arguments satisfy, and none when
they satisfy no concept of the list. -/
def tag_of (E : Env) (Concepts : List Concept) (Ts : List CppType) : Option Concept :=
  Concepts.find? (fun c => is_satisfied_by E c Ts)

/-- The concept list of `iterator_tag_of`. -/
def iterator_tag_of_concepts : List Concept :=
  [ContiguousIteratorConcept, RandomAccessIteratorConcept, BidirectionalIteratorConcept,
    ForwardIteratorConcept, InputIteratorConcept]

/-- The alias `iterator_tag_of<T>`. -/
def iterator_tag_of (E : Env) (T : CppType) : Option Concept :=
  tag_of E iterator_tag_of_concepts [T]

/-- The tag `sentinel_tag`. -/
def sentinel_tag : tag := tag.root SentinelConcept

/-- The tag `sized_sentinel_tag`. -/
def sized_sentinel_tag : tag := tag.derived SizedSentinelConcept sentinel_tag

/-- The alias `sentinel_tag_of<S, I>`. -/
def sentinel_tag_of (E : Env) (S I : CppType) : Option Concept :=
  tag_of E [SizedSentinelConcept, SentinelConcept] [S, I]

/-- The tag `range_tag`. -/
def range_tag : tag := tag.root RangeConcept

/-- The tag `input_range_tag`. -/
def input_range_tag : tag := tag.derived InputRangeConcept range_tag

/-- The tag `forward_range_tag`. -/
def forward_range_tag : tag := tag.derived ForwardRangeConcept input_range_tag

/-- The tag `bidirectional_range_tag`. -/
def bidirectional_range_tag : tag := tag.derived BidirectionalRangeConcept forward_range_tag

/-- The tag `random_access_range_tag`. -/
def random_access_range_tag : tag :=
  tag.derived RandomAccessRangeConcept bidirectional_range_tag

/-- The tag `contiguous_range_tag`. -/
def contiguous_range_tag : tag := tag.derived ContiguousRangeConcept random_access_range_tag

/-- The concept list of `range_tag_of`. -/
def range_tag_of_concepts : List Concept :=
  [ContiguousRangeConcept, RandomAccessRangeConcept, BidirectionalRangeConcept,
    ForwardRangeConcept, InputRangeConcept, RangeConcept]

/-- The alias `range_tag_of<T>`. -/
def range_tag_of (E : Env) (T : CppType) : Option Concept :=
  tag_of E range_tag_of_concepts [T]

/-- The tag `bounded_range_tag`. -/
def bounded_range_tag : tag := tag.derived BoundedRangeConcept range_tag

/-- The alias `bounded_range_tag_of<T>`. -/
def bounded_range_tag_of (E : Env) (T : CppType) : Option Concept :=
  tag_of E [BoundedRangeConcept, RangeConcept] [T]

/-- The tag `sized_range_tag`. -/
def sized_range_tag : tag := tag.derived SizedRangeConcept range_tag

/-- The alias `sized_range_tag_of<T>`. -/
def sized_range_tag_of (E : Env) (T : CppType) : Option Concept :=
  tag_of E [SizedRangeConcept, RangeConcept] [T]

/-- The tag `view_tag`. -/
def view_tag : tag := tag.derived ViewConcept range_tag

/-- The tag `bounded_view_tag`. -/
def bounded_view_tag : tag := tag.derived BoundedViewConcept view_tag

/-- The concept list of `bounded_view_tag_of`. -/
def bounded_view_tag_of_concepts : List Concept :=
  [BoundedViewConcept, ViewConcept, RangeConcept]

/-- The alias `bounded_view_tag_of<T>`. -/
def bounded_view_tag_of (E : Env) (T : CppType) : Option Concept :=
  tag_of E bounded_view_tag_of_concepts [T]

/-- The tag `sized_view_tag`. -/
def sized_view_tag : tag := tag.derived SizedViewConcept view_tag

/-- The alias `sized_view_tag_of<T>`. -/
def sized_view_tag_of (E : Env) (T : CppType) : Option Concept :=
  tag_of E [SizedViewConcept, ViewConcept, RangeConcept] [T]

/-- The alias `view_tag_of<T>`. -/
def view_tag_of (E : Env) (T : CppType) : Option Concept :=
  tag_of E [ViewConcept, RangeConcept] [T]

/-- The tags that the two headers declare with a base tag. -/
def tags_with_base : List tag :=
  [input_range_tag, forward_range_tag, bidirectional_range_tag, random_access_range_tag,
    contiguous_range_tag, bounded_range_tag, sized_range_tag, view_tag, bounded_view_tag,
    sized_view_tag, sized_sentinel_tag]

/-- One concept struct refines another: on every argument list, satisfying the first
implies satisfying the second. -/
def refines (E : Env) (c d : Concept) : Prop :=
  ∀ Ts : List CppType, is_satisfied_by E c Ts = true → is_satisfied_by E d Ts = true

/-- Every inheritance step below a tag goes from a concept to a concept it refines. -/
def tag.mirrors (E : Env) : tag → Prop
  | root _ => True
  | derived c b => refines E c b.concept ∧ b.mirrors E

/-! ## Indirect callable concepts (`utility/iterator_concepts.hpp`) -/

/-- Modelled from the spec: `meta::cartesian_product` of `meta/meta.hpp`, the list of all
the lists that take one element from each list of a list of lists. -/
def meta_cartesian_product : List (List CppType) → List (List CppType)
  | [] => [[]]
  | xs :: rest => xs.flatMap (fun x => (meta_cartesian_product rest).map (fun t => x :: t))

/-- Modelled from the spec: `meta::transform` of `meta/meta.hpp` with a function whose
result may fail to substitute; the list substitutes when every element does. -/
def meta_transform {β : Type} (f : CppType → Option β) : List CppType → Option (List β)
  | [] => some []
  | x :: xs =>
    match f x, meta_transform f xs with
    | some y, some ys => some (y :: ys)
    | _, _ => none

/-- Modelled from the spec: `meta::strict_and` of `meta/meta.hpp`, the conjunction of a
list of compile-time booleans. -/
def meta_strict_and (bs : List Bool) : Bool :=
  bs.all id

/-- The alias `detail::readable_types_<I>`: the list of `value_type_t<I> &` and
`reference_t<I>`. -/
def readable_types_ (E : Env) (I : CppType) : Option (List CppType) :=
  match E.value_type_t I, E.reference_t I with
  | some v, some r => some [add_lvalue_reference v, r]
  | _, _ => none

/-- The alias `detail::iter_args_lists_<Is...>`: the cartesian product of the readable
types of the `Is`, with the list of their common reference types pushed to the back. -/
def iter_args_lists_ (E : Env) (Is : List CppType) : Option (List (List CppType)) :=
  match meta_transform (readable_types_ E) Is, meta_transform E.iter_common_reference_t Is with
  | some ts, some cs => some (meta_cartesian_product ts ++ [cs])
  | _, _ => none

/-- The alias `detail::iter_map_reduce_fn_<MapFn, ReduceFn>`, invoked on `Is...`: `MapFn`
is applied to each argument list of `iter_args_lists_` and `ReduceFn` to the results. -/
def iter_map_reduce_fn_ {β γ : Type} (E : Env) (MapFn : List CppType → β)
    (ReduceFn : List β → γ) (Is : List CppType) : Option γ :=
  (iter_args_lists_ E Is).map (fun ls => ReduceFn (ls.map MapFn))

/-- The alias `detail::indirect_invocable_<InvocableConcept, C, Is...>`: every `Is` is
`Readable`, and then `InvocableConcept` holds of `C &` followed by each argument list. -/
def indirect_invocable_ (E : Env) (InvocableConcept : List CppType → Bool) (C : CppType)
    (Is : List CppType) : Bool :=
  Is.all (Readable E) &&
  (match iter_map_reduce_fn_ E (fun args => InvocableConcept (add_lvalue_reference C :: args))
      meta_strict_and Is with
    | some b => b
    | none => false)

/-- The concept `IndirectRelation<C, I0, I1>`. -/
def IndirectRelation (E : Env) (C I0 I1 : CppType) : Bool :=
  indirect_invocable_ E (is_satisfied_by E RelationConcept) C [I0, I1] &&
  E.CopyConstructible C

/-- The concept `IndirectRelation<C, I0>`, with `I1` defaulted to `I0`. -/
def IndirectRelation_default (E : Env) (C I0 : CppType) : Bool :=
  IndirectRelation E C I0 I0

/-- Whether `Relation<F, a, b>` holds of two argument types that have to substitute. -/
def Relation_on (E : Env) (F : CppType) (a b : Option CppType) : Bool :=
  holds a (fun x => holds b (fun y => E.Relation F x y))

/-- What the specification says of `IndirectRelation<C, I0, I1>`: both iterators are
`Readable`, `C` is `CopyConstructible`, and `Relation<C &, a, b>` holds of the five pairs
of value references, references and common references. -/
def IndirectRelation_spec (E : Env) (C I0 I1 : CppType) : Bool :=
  let F := add_lvalue_reference C
  let v0 := (E.value_type_t I0).map add_lvalue_reference
  let v1 := (E.value_type_t I1).map add_lvalue_reference
  Readable E I0 && Readable E I1 && E.CopyConstructible C &&
  Relation_on E F v0 v1 &&
  Relation_on E F v0 (E.reference_t I1) &&
  Relation_on E F (E.reference_t I0) v1 &&
  Relation_on E F (E.reference_t I0) (E.reference_t I1) &&
  Relation_on E F (E.iter_common_reference_t I0) (E.iter_common_reference_t I1)

/-! ## An example environment

A small program for the concepts to be evaluated on: pointers, `std::reverse_iterator`,
`std::initializer_list`, and four classes of the program, compiled against libstdc++. -/

/-- The class `cls 0` of the example: a view of a run of `int`s held as two `int *`,
derived from `view_base`, with a `size()` member. -/
def int_view : CppType := cls 0

/-- The class `cls 1` of the example: a bidirectional iterator over `int` that has an
`operator-` of linear cost. -/
def slow_iterator : CppType := cls 1

/-- The class `cls 2` of the example: a copyable function object that compares two
`int`s. -/
def int_less : CppType := cls 2

/-- The class `cls 3` of the example: a single-pass iterator over `int`, whose iterator
category is `input_iterator_tag`. -/
def input_cursor : CppType := cls 3

/-- The type that the iterators of the example refer to. -/
def std_elem : CppType → Option CppType
  | ptr t => some t
  | cls 1 => some int
  | cls 3 => some int
  | reverse_iterator b => std_elem b
  | _ => none

/-- The rank of an iterator tag in the chain of iterator tags. -/
def tag_rank : CppType → Option Nat
  | input_iterator_tag => some 0
  | forward_iterator_tag => some 1
  | bidirectional_iterator_tag => some 2
  | random_access_iterator_tag => some 3
  | contiguous_iterator_tag => some 4
  | _ => none

/-- The iterator category of the iterators of the example: contiguous for a pointer,
bidirectional for `slow_iterator`, input for `input_cursor`, and at most random access for
a reverse iterator, which takes a bidirectional iterator at least. -/
def std_category : CppType → Option CppType
  | ptr _ => some contiguous_iterator_tag
  | cls 1 => some bidirectional_iterator_tag
  | cls 3 => some input_iterator_tag
  | reverse_iterator b =>
    match std_category b with
    | some contiguous_iterator_tag => some random_access_iterator_tag
    | some random_access_iterator_tag => some random_access_iterator_tag
    | some bidirectional_iterator_tag => some bidirectional_iterator_tag
    | _ => none
  | _ => none

/-- Whether an iterator of the example can step backwards. -/
def std_bidirectional (I : CppType) : Bool :=
  match std_category I with
  | some c => decide (c ≠ input_iterator_tag ∧ c ≠ forward_iterator_tag)
  | none => false

/-- Whether an iterator of the example has the arithmetic of a random access iterator. -/
def std_random_access (I : CppType) : Bool :=
  match std_category I with
  | some c => decide (c = random_access_iterator_tag ∨ c = contiguous_iterator_tag)
  | none => false

/-- The iterator that `begin` and `end` give for an lvalue of a range of the example. -/
def std_range_iterator : CppType → Option CppType
  | lref (initializer_list t) => some (ptr (add_const t))
  | lref (const (initializer_list t)) => some (ptr (add_const t))
  | lref (cls 0) => some (ptr int)
  | lref (const (cls 0)) => some (ptr int)
  | _ => none

/-- The example environment. -/
def stdEnv : Env where
  reference_t I := (std_elem I).map lref
  value_type_t I := (std_elem I).map remove_cv
  rvalue_reference_t I := (std_elem I).map rref
  iter_common_reference_t I := (std_elem I).map lref
  difference_type_t I := if (std_category I).isSome then some ptrdiff_t else none
  iterator_category_t := std_category
  iterator_t T := std_range_iterator (add_lvalue_reference T)
  sentinel_t T := std_range_iterator (add_lvalue_reference T)
  range_value_type_t T :=
    match std_range_iterator (add_lvalue_reference T) with
    | some i => (std_elem i).map remove_cv
    | none => none
  range_reference_t T :=
    match std_range_iterator (add_lvalue_reference T) with
    | some i => (std_elem i).map lref
    | none => none
  deref e := (std_elem (uncvref_t e)).map lref
  pre_increment e :=
    match e with
    | lref i => if (std_category i).isSome then some (lref i) else none
    | _ => none
  post_increment e :=
    match e with
    | lref i => if (std_category i).isSome then some i else none
    | _ => none
  pre_decrement e :=
    match e with
    | lref i => if std_bidirectional i then some (lref i) else none
    | _ => none
  post_decrement e :=
    match e with
    | lref i => if std_bidirectional i then some i else none
    | _ => none
  plus a b :=
    if std_random_access (uncvref_t a) && decide (uncvref_t b = ptrdiff_t) then
      some (uncvref_t a)
    else if decide (uncvref_t a = ptrdiff_t) && std_random_access (uncvref_t b) then
      some (uncvref_t b)
    else none
  minus a b :=
    if std_random_access (uncvref_t a) && decide (uncvref_t b = ptrdiff_t) then
      some (uncvref_t a)
    else if std_bidirectional (uncvref_t a) && decide (uncvref_t a = uncvref_t b) then
      some ptrdiff_t
    else none
  plus_assign a b :=
    match a with
    | lref i =>
      if std_random_access i && decide (uncvref_t b = ptrdiff_t) then some (lref i) else none
    | _ => none
  minus_assign a b :=
    match a with
    | lref i =>
      if std_random_access i && decide (uncvref_t b = ptrdiff_t) then some (lref i) else none
    | _ => none
  subscript a b :=
    if std_random_access (uncvref_t a) && decide (uncvref_t b = ptrdiff_t) then
      (std_elem (uncvref_t a)).map lref
    else none
  assign a b :=
    match a with
    | lref int => if decide (uncvref_t b = int) then some (lref int) else none
    | _ => none
  const_cast c e := decide (uncvref_t c = uncvref_t e)
  ranges_end := std_range_iterator
  size e := if (std_range_iterator e).isSome then some size_t else none
  data := std_range_iterator
  CommonReference a b := decide (uncvref_t a = uncvref_t b)
  Integral T :=
    decide (remove_cv T = int ∨ remove_cv T = ptrdiff_t ∨ remove_cv T = size_t)
  Semiregular T := (std_category T).isSome || (std_range_iterator (lref T)).isSome
  Regular T := (std_category T).isSome
  WeaklyEqualityComparableWith S I := (std_category S).isSome && decide (S = I)
  StrictTotallyOrdered T := std_random_access T
  DerivedFrom T U :=
    match tag_rank T, tag_rank U with
    | some m, some n => decide (n ≤ m)
    | _, _ => decide (T = cls 0 ∧ U = view_base)
  Movable T := (std_category T).isSome || (std_range_iterator (lref T)).isSome
  DefaultConstructible T := (std_category T).isSome || (std_range_iterator (lref T)).isSome
  CopyConstructible T :=
    (std_category T).isSome || (std_range_iterator (lref T)).isSome || decide (T = cls 2)
  Relation F T U :=
    decide (F = lref (cls 2) ∧ uncvref_t T = int ∧ uncvref_t U = int)
  enable_view _ := none
  disable_sized_range _ := false
  disable_sized_sentinel _ _ := false
  disable_sized_sentinel_specialized _ _ := false
  glibcxx := true
  libcpp_version := none

/-- Whether a type matches one of the five explicit specialisations of
`detail::view_predicate_`. -/
def view_predicate_specialized : CppType → Bool
  | .initializer_list _ => true
  | .set _ _ _ => true
  | .multiset _ _ _ => true
  | .unordered_set _ _ _ _ => true
  | .unordered_multiset _ _ _ _ => true
  | _ => false

/-- The example environment after the program has specialised `enable_view` twice:
`enable_view<std::initializer_list<int>>` derives from `std::true_type`, and
`enable_view<int_view>` from `std::false_type`. -/
def enableViewEnv : Env :=
  { stdEnv with
    enable_view := fun T =>
      if T = initializer_list int then some true
      else if T = int_view then some false
      else none }

/-- The example environment after the program has opted `int_view` out of `SizedRange`
by specialising `disable_sized_range<int_view>` to `std::true_type`. -/
def optOutEnv : Env :=
  { stdEnv with disable_sized_range := fun T => decide (T = int_view) }

/-- The example environment after the program has opted `slow_iterator` out of
`SizedSentinel` by specialising `disable_sized_sentinel<slow_iterator, slow_iterator>` to
`std::true_type`, for a standard library given by its two version macros. -/
def slowEnv (glibcxx : Bool) (libcpp_version : Option Nat) : Env :=
  { stdEnv with
    disable_sized_sentinel := fun S I => decide (S = slow_iterator ∧ I = slow_iterator)
    glibcxx := glibcxx
    libcpp_version := libcpp_version }

/-- The example environment against libstdc++ after the program has opted `slow_iterator`
out of `SizedSentinel` and has declared the explicit specialisation
`disable_sized_sentinel<std::reverse_iterator<slow_iterator>,
std::reverse_iterator<slow_iterator>>`, deriving from `std::false_type`. -/
def slowReverseEnv : Env :=
  { slowEnv true none with
    disable_sized_sentinel_specialized := fun S I =>
      decide (S = reverse_iterator slow_iterator ∧ I = reverse_iterator slow_iterator) }

/-! ## Unfolding the recursive definitions -/

theorem SizedSentinel_unfold (E : Env) (S I : CppType) :
    SizedSentinel E S I =
      (SizedSentinel_requires E S I &&
      Sentinel E S I &&
      !disable_sized_sentinel E (uncvref_t S) (uncvref_t I)) := by
  rw [SizedSentinel]

theorem disable_sized_sentinel_reverse (E : Env) (S I : CppType) :
    disable_sized_sentinel E (reverse_iterator S) (reverse_iterator I) =
      if reverse_iterator_workaround E &&
          !E.disable_sized_sentinel_specialized (reverse_iterator S) (reverse_iterator I) then
        !SizedSentinel E I S
      else E.disable_sized_sentinel (reverse_iterator S) (reverse_iterator I) := by
  rw [disable_sized_sentinel]

theorem disable_sized_sentinel_primary (E : Env) (S I : CppType)
    (h : ∀ S' I', S = reverse_iterator S' → I = reverse_iterator I' → False) :
    disable_sized_sentinel E S I = E.disable_sized_sentinel S I := by
  rw [disable_sized_sentinel]
  intro S' I' hS hI
  exact h S' I' hS hI

/-! ## Refinement between concepts -/

theorem refines_refl (E : Env) (c : Concept) : refines E c c :=
  fun _ h => h

theorem refines_trans {E : Env} {a b c : Concept} (hab : refines E a b) (hbc : refines E b c) :
    refines E a c :=
  fun Ts h => hbc Ts (hab Ts h)

theorem refines_unary (E : Env) (c d : Concept) (p q : CppType → Bool)
    (hc : ∀ Ts, is_satisfied_by E c Ts = true → ∃ T, Ts = [T])
    (hp : ∀ T, is_satisfied_by E c [T] = p T) (hq : ∀ T, is_satisfied_by E d [T] = q T)
    (h : ∀ T, p T = true → q T = true) : refines E c d := by
  intro Ts hTs
  obtain ⟨T, rfl⟩ := hc Ts hTs
  rw [hq]
  rw [hp] at hTs
  exact h T hTs

theorem ContiguousIterator_RandomAccessIterator (E : Env) (I : CppType)
    (h : ContiguousIterator E I = true) : RandomAccessIterator E I = true := by
  simp only [ContiguousIterator, Bool.and_eq_true] at h
  exact h.1.1.1

theorem RandomAccessIterator_BidirectionalIterator (E : Env) (I : CppType)
    (h : RandomAccessIterator E I = true) : BidirectionalIterator E I = true := by
  simp only [RandomAccessIterator, Bool.and_eq_true] at h
  exact h.1.1.1.2

theorem BidirectionalIterator_ForwardIterator (E : Env) (I : CppType)
    (h : BidirectionalIterator E I = true) : ForwardIterator E I = true := by
  simp only [BidirectionalIterator, Bool.and_eq_true] at h
  exact h.1.2

theorem ForwardIterator_InputIterator (E : Env) (I : CppType)
    (h : ForwardIterator E I = true) : InputIterator E I = true := by
  simp only [ForwardIterator, Bool.and_eq_true] at h
  exact h.1.1.1

theorem InputIterator_Iterator (E : Env) (I : CppType)
    (h : InputIterator E I = true) : Iterator E I = true := by
  simp only [InputIterator, Bool.and_eq_true] at h
  exact h.1.1

theorem Iterator_WeaklyIncrementable (E : Env) (I : CppType)
    (h : Iterator E I = true) : WeaklyIncrementable E I = true := by
  simp only [Iterator, Bool.and_eq_true] at h
  exact h.2

theorem is_satisfied_by_unary (E : Env) (c : Concept)
    (hc : c ≠ SentinelConcept ∧ c ≠ SizedSentinelConcept ∧ c ≠ RelationConcept)
    (Ts : List CppType) (h : is_satisfied_by E c Ts = true) : ∃ T, Ts = [T] := by
  obtain ⟨h1, h2, h3⟩ := hc
  match Ts with
  | [] => cases c <;> simp [is_satisfied_by] at h
  | [T] => exact ⟨T, rfl⟩
  | _ :: _ :: rest =>
    cases c <;> contradiction

theorem ContiguousRange_RandomAccessRange (E : Env) (T : CppType)
    (h : ContiguousRange E T = true) : RandomAccessRange E T = true := by
  simp only [ContiguousRange, Bool.and_eq_true] at h
  exact h.1.1

theorem RandomAccessRange_BidirectionalRange (E : Env) (T : CppType)
    (h : RandomAccessRange E T = true) : BidirectionalRange E T = true := by
  simp only [RandomAccessRange, Bool.and_eq_true] at h
  exact h.1

theorem BidirectionalRange_ForwardRange (E : Env) (T : CppType)
    (h : BidirectionalRange E T = true) : ForwardRange E T = true := by
  simp only [BidirectionalRange, Bool.and_eq_true] at h
  exact h.1

theorem ForwardRange_InputRange (E : Env) (T : CppType)
    (h : ForwardRange E T = true) : InputRange E T = true := by
  simp only [ForwardRange, Bool.and_eq_true] at h
  exact h.1

theorem InputRange_Range (E : Env) (T : CppType)
    (h : InputRange E T = true) : Range E T = true := by
  simp only [InputRange, Bool.and_eq_true] at h
  exact h.1

theorem BoundedRange_Range (E : Env) (T : CppType)
    (h : BoundedRange E T = true) : Range E T = true := by
  simp only [BoundedRange, Bool.and_eq_true] at h
  exact h.1

theorem SizedRange_Range (E : Env) (T : CppType)
    (h : SizedRange E T = true) : Range E T = true := by
  simp only [SizedRange, Bool.and_eq_true] at h
  exact h.1.2

theorem View_Range (E : Env) (T : CppType)
    (h : View E T = true) : Range E T = true := by
  simp only [View, Bool.and_eq_true] at h
  exact h.1.1.1

theorem BoundedView_View (E : Env) (T : CppType)
    (h : BoundedView E T = true) : View E T = true := by
  simp only [BoundedView, Bool.and_eq_true] at h
  exact h.1

theorem SizedView_View (E : Env) (T : CppType)
    (h : SizedView E T = true) : View E T = true := by
  simp only [SizedView, Bool.and_eq_true] at h
  exact h.1

theorem SizedSentinel_Sentinel (E : Env) (S I : CppType)
    (h : SizedSentinel E S I = true) : Sentinel E S I = true := by
  rw [SizedSentinel_unfold] at h
  simp only [Bool.and_eq_true] at h
  exact h.1.2

theorem SizedSentinel_refines_Sentinel (E : Env) :
    refines E SizedSentinelConcept SentinelConcept := by
  intro Ts h
  match Ts with
  | [] => simp [is_satisfied_by] at h
  | [_] => simp [is_satisfied_by] at h
  | [S, I] => exact SizedSentinel_Sentinel E S I h
  | _ :: _ :: _ :: _ => simp [is_satisfied_by] at h

/-! ## Evaluation in the example environment -/

theorem stdEnv_SizedSentinel_int_ptr : SizedSentinel stdEnv (ptr int) (ptr int) = true := by
  rw [SizedSentinel_unfold, disable_sized_sentinel_primary]
  · decide
  · intro S' I' h
    simp [uncvref_t, remove_reference, remove_cv] at h

theorem stdEnv_RandomAccessIterator_int_ptr :
    RandomAccessIterator stdEnv (ptr int) = true := by
  rw [RandomAccessIterator, stdEnv_SizedSentinel_int_ptr]
  decide

theorem stdEnv_ContiguousIterator_int_ptr :
    ContiguousIterator stdEnv (ptr int) = true := by
  rw [ContiguousIterator, stdEnv_RandomAccessIterator_int_ptr]
  decide

/-! ## The refinement chains -/

/-- C1: for every iterator type the iterator concepts form a refinement chain, from
`ContiguousIterator` through `RandomAccessIterator`, `BidirectionalIterator`,
`ForwardIterator`, `InputIterator` and `Iterator` down to `WeaklyIncrementable`; and in the
concept list of `iterator_tag_of` every concept implies every concept listed after it. -/
theorem iterator_concepts_refinement_chain (E : Env) (I : CppType) :
    (ContiguousIterator E I = true → RandomAccessIterator E I = true) ∧
    (RandomAccessIterator E I = true → BidirectionalIterator E I = true) ∧
    (BidirectionalIterator E I = true → ForwardIterator E I = true) ∧
    (ForwardIterator E I = true → InputIterator E I = true) ∧
    (InputIterator E I = true → Iterator E I = true) ∧
    (Iterator E I = true → WeaklyIncrementable E I = true) ∧
    List.Pairwise (fun c d => is_satisfied_by E c [I] = true → is_satisfied_by E d [I] = true)
      iterator_tag_of_concepts := by
  have h1 := ContiguousIterator_RandomAccessIterator E I
  have h2 := RandomAccessIterator_BidirectionalIterator E I
  have h3 := BidirectionalIterator_ForwardIterator E I
  have h4 := ForwardIterator_InputIterator E I
  refine ⟨h1, h2, h3, h4, InputIterator_Iterator E I, Iterator_WeaklyIncrementable E I, ?_⟩
  simp only [iterator_tag_of_concepts, List.pairwise_cons, List.mem_cons, List.mem_singleton,
    List.not_mem_nil, forall_eq_or_imp, forall_eq, is_satisfied_by, List.Pairwise.nil,
    IsEmpty.forall_iff, implies_true, and_true]
  tauto

/-- C1, on an example: `int *` in the example environment satisfies `ContiguousIterator`,
hence every concept of the chain, and `iterator_tag_of` selects the head of its list. -/
theorem iterator_concepts_refinement_chain_witness :
    ContiguousIterator stdEnv (ptr int) = true ∧
    WeaklyIncrementable stdEnv (ptr int) = true ∧
    iterator_tag_of stdEnv (ptr int) = some ContiguousIteratorConcept := by
  have hC := stdEnv_ContiguousIterator_int_ptr
  have h := iterator_concepts_refinement_chain stdEnv (ptr int)
  refine ⟨hC, h.2.2.2.2.2.1 (h.2.2.2.2.1 (h.2.2.2.1 (h.2.2.1 (h.2.1 (h.1 hC))))), ?_⟩
  simp [iterator_tag_of, tag_of, iterator_tag_of_concepts, is_satisfied_by, hC]


/-- C2: for every type the range concepts form a refinement chain, from `ContiguousRange`
through `RandomAccessRange`, `BidirectionalRange`, `ForwardRange` and `InputRange` down to
`Range`; and in the concept list of `range_tag_of` every concept implies every concept
listed after it. -/
theorem range_concepts_refinement_chain (E : Env) (T : CppType) :
    (ContiguousRange E T = true → RandomAccessRange E T = true) ∧
    (RandomAccessRange E T = true → BidirectionalRange E T = true) ∧
    (BidirectionalRange E T = true → ForwardRange E T = true) ∧
    (ForwardRange E T = true → InputRange E T = true) ∧
    (InputRange E T = true → Range E T = true) ∧
    List.Pairwise (fun c d => is_satisfied_by E c [T] = true → is_satisfied_by E d [T] = true)
      range_tag_of_concepts := by
  have h1 := ContiguousRange_RandomAccessRange E T
  have h2 := RandomAccessRange_BidirectionalRange E T
  have h3 := BidirectionalRange_ForwardRange E T
  have h4 := ForwardRange_InputRange E T
  have h5 := InputRange_Range E T
  refine ⟨h1, h2, h3, h4, h5, ?_⟩
  simp only [range_tag_of_concepts, List.pairwise_cons, List.mem_cons, List.mem_singleton,
    List.not_mem_nil, forall_eq_or_imp, forall_eq, is_satisfied_by, List.Pairwise.nil,
    IsEmpty.forall_iff, implies_true, and_true]
  tauto

/-- C2, on an example: the view `int_view` of the example environment satisfies
`ContiguousRange`, hence every concept of the chain, and `range_tag_of` selects the head
of its list. -/
theorem range_concepts_refinement_chain_witness :
    ContiguousRange stdEnv int_view = true ∧
    Range stdEnv int_view = true ∧
    range_tag_of stdEnv int_view = some ContiguousRangeConcept := by
  have hC : ContiguousRange stdEnv int_view = true := by
    have hi : stdEnv.iterator_t int_view = some (ptr int) := by decide
    rw [ContiguousRange, RandomAccessRange, hi, holds, stdEnv_RandomAccessIterator_int_ptr]
    decide
  have h := range_concepts_refinement_chain stdEnv int_view
  refine ⟨hC, h.2.2.2.2.1 (h.2.2.2.1 (h.2.2.1 (h.2.1 (h.1 hC)))), ?_⟩
  simp [range_tag_of, tag_of, range_tag_of_concepts, is_satisfied_by, hC]

theorem tag_mirrors_bases (E : Env) (t : tag) (h : t.mirrors E) :
    ∀ b ∈ t.bases, refines E t.concept b.concept := by
  induction t with
  | root c =>
    intro b hb
    simp only [tag.bases, List.mem_singleton] at hb
    subst hb
    exact refines_refl E _
  | derived c base ih =>
    intro b hb
    simp only [tag.bases, List.mem_cons] at hb
    rcases hb with rfl | hb
    · exact refines_refl E _
    · exact refines_trans h.1 (ih h.2 b hb)

theorem range_tag_mirrors (E : Env) : range_tag.mirrors E := trivial

theorem input_range_tag_mirrors (E : Env) : input_range_tag.mirrors E :=
  ⟨refines_unary E _ _ (InputRange E) (Range E) (is_satisfied_by_unary E _ (by decide))
    (fun _ => rfl) (fun _ => rfl) (InputRange_Range E), range_tag_mirrors E⟩

theorem forward_range_tag_mirrors (E : Env) : forward_range_tag.mirrors E :=
  ⟨refines_unary E _ _ (ForwardRange E) (InputRange E) (is_satisfied_by_unary E _ (by decide))
    (fun _ => rfl) (fun _ => rfl) (ForwardRange_InputRange E), input_range_tag_mirrors E⟩

theorem bidirectional_range_tag_mirrors (E : Env) : bidirectional_range_tag.mirrors E :=
  ⟨refines_unary E _ _ (BidirectionalRange E) (ForwardRange E)
    (is_satisfied_by_unary E _ (by decide)) (fun _ => rfl) (fun _ => rfl)
    (BidirectionalRange_ForwardRange E), forward_range_tag_mirrors E⟩

theorem random_access_range_tag_mirrors (E : Env) : random_access_range_tag.mirrors E :=
  ⟨refines_unary E _ _ (RandomAccessRange E) (BidirectionalRange E)
    (is_satisfied_by_unary E _ (by decide)) (fun _ => rfl) (fun _ => rfl)
    (RandomAccessRange_BidirectionalRange E), bidirectional_range_tag_mirrors E⟩

theorem contiguous_range_tag_mirrors (E : Env) : contiguous_range_tag.mirrors E :=
  ⟨refines_unary E _ _ (ContiguousRange E) (RandomAccessRange E)
    (is_satisfied_by_unary E _ (by decide)) (fun _ => rfl) (fun _ => rfl)
    (ContiguousRange_RandomAccessRange E), random_access_range_tag_mirrors E⟩

theorem bounded_range_tag_mirrors (E : Env) : bounded_range_tag.mirrors E :=
  ⟨refines_unary E _ _ (BoundedRange E) (Range E) (is_satisfied_by_unary E _ (by decide))
    (fun _ => rfl) (fun _ => rfl) (BoundedRange_Range E), range_tag_mirrors E⟩

theorem sized_range_tag_mirrors (E : Env) : sized_range_tag.mirrors E :=
  ⟨refines_unary E _ _ (SizedRange E) (Range E) (is_satisfied_by_unary E _ (by decide))
    (fun _ => rfl) (fun _ => rfl) (SizedRange_Range E), range_tag_mirrors E⟩

theorem view_tag_mirrors (E : Env) : view_tag.mirrors E :=
  ⟨refines_unary E _ _ (View E) (Range E) (is_satisfied_by_unary E _ (by decide))
    (fun _ => rfl) (fun _ => rfl) (View_Range E), range_tag_mirrors E⟩

theorem bounded_view_tag_mirrors (E : Env) : bounded_view_tag.mirrors E :=
  ⟨refines_unary E _ _ (BoundedView E) (View E) (is_satisfied_by_unary E _ (by decide))
    (fun _ => rfl) (fun _ => rfl) (BoundedView_View E), view_tag_mirrors E⟩

theorem sized_view_tag_mirrors (E : Env) : sized_view_tag.mirrors E :=
  ⟨refines_unary E _ _ (SizedView E) (View E) (is_satisfied_by_unary E _ (by decide))
    (fun _ => rfl) (fun _ => rfl) (SizedView_View E), view_tag_mirrors E⟩

theorem sized_sentinel_tag_mirrors (E : Env) : sized_sentinel_tag.mirrors E :=
  ⟨SizedSentinel_refines_Sentinel E, trivial⟩

theorem tags_with_base_mirror (E : Env) : ∀ t ∈ tags_with_base, t.mirrors E := by
  intro t ht
  simp only [tags_with_base, List.mem_cons, List.mem_singleton, List.not_mem_nil,
    or_false] at ht
  rcases ht with rfl | rfl | rfl | rfl | rfl | rfl | rfl | rfl | rfl | rfl | rfl
  · exact input_range_tag_mirrors E
  · exact forward_range_tag_mirrors E
  · exact bidirectional_range_tag_mirrors E
  · exact random_access_range_tag_mirrors E
  · exact contiguous_range_tag_mirrors E
  · exact bounded_range_tag_mirrors E
  · exact sized_range_tag_mirrors E
  · exact view_tag_mirrors E
  · exact bounded_view_tag_mirrors E
  · exact sized_view_tag_mirrors E
  · exact sized_sentinel_tag_mirrors E

/-- C3: tag inheritance mirrors concept refinement.  Each of the eleven tags declared with
a base tag has that base, and on every list of type arguments satisfying the concept of
the tag implies satisfying the concept of its base; so the concept of every tag it
converts to (its base, the base of its base, and so on) is satisfied as well. -/
theorem tag_inheritance_mirrors_refinement (E : Env) (t : tag) (ht : t ∈ tags_with_base) :
    (∃ c b, t = tag.derived c b ∧
      ∀ Ts, is_satisfied_by E t.concept Ts = true → is_satisfied_by E b.concept Ts = true) ∧
    (∀ b ∈ t.bases, ∀ Ts,
      is_satisfied_by E t.concept Ts = true → is_satisfied_by E b.concept Ts = true) := by
  have hm := tags_with_base_mirror E t ht
  refine ⟨?_, tag_mirrors_bases E t hm⟩
  cases t with
  | root c =>
    simp only [tags_with_base, List.mem_cons, List.mem_singleton, List.not_mem_nil,
      or_false] at ht
    rcases ht with h | h | h | h | h | h | h | h | h | h | h <;> cases h
  | derived c b => exact ⟨c, b, rfl, hm.1⟩

/-- C3, on an example: `bounded_view_tag` is one of the tags, `int_view` satisfies its
concept in the example environment, and so it satisfies the concepts of `view_tag` and
`range_tag`, the tags that `bounded_view_tag` converts to. -/
theorem tag_inheritance_mirrors_refinement_witness :
    bounded_view_tag ∈ tags_with_base ∧
    is_satisfied_by stdEnv BoundedViewConcept [int_view] = true ∧
    is_satisfied_by stdEnv ViewConcept [int_view] = true ∧
    is_satisfied_by stdEnv RangeConcept [int_view] = true := by
  have hmem : bounded_view_tag ∈ tags_with_base := by decide
  have h := (tag_inheritance_mirrors_refinement stdEnv bounded_view_tag hmem).2
  have hB : is_satisfied_by stdEnv BoundedViewConcept [int_view] = true := by decide
  exact ⟨hmem, hB, h view_tag (by decide) [int_view] hB, h range_tag (by decide) [int_view] hB⟩


/-! ## Tag selection -/

theorem tag_of_selected (E : Env) (Concepts : List Concept) (Ts : List CppType)
    (hP : List.Pairwise
      (fun c d => is_satisfied_by E c Ts = true → is_satisfied_by E d Ts = true) Concepts)
    (c : Concept) (h : tag_of E Concepts Ts = some c) :
    ∃ before after, Concepts = before ++ c :: after ∧
      (∀ d ∈ c :: after, is_satisfied_by E d Ts = true) ∧
      (∀ d ∈ before, is_satisfied_by E d Ts = false) := by
  unfold tag_of at h
  obtain ⟨hc, before, after, rfl, hb⟩ := List.find?_eq_some.mp h
  refine ⟨before, after, rfl, ?_, ?_⟩
  · intro d hd
    rcases List.mem_cons.mp hd with rfl | hd
    · exact hc
    · have h2 := (List.pairwise_append.mp hP).2.1
      exact (List.pairwise_cons.mp h2).1 d hd hc
  · intro d hd
    have := hb d hd
    simpa using this

theorem bounded_view_tag_of_concepts_pairwise (E : Env) (T : CppType) :
    List.Pairwise
      (fun c d => is_satisfied_by E c [T] = true → is_satisfied_by E d [T] = true)
      bounded_view_tag_of_concepts := by
  have h1 := BoundedView_View E T
  have h2 := View_Range E T
  simp only [bounded_view_tag_of_concepts, List.pairwise_cons, List.mem_cons,
    List.mem_singleton, List.not_mem_nil, forall_eq_or_imp, forall_eq, is_satisfied_by,
    List.Pairwise.nil, IsEmpty.forall_iff, implies_true, and_true]
  tauto

/-- C4: with `tag_of` selecting the first concept of its list that the type satisfies,
`bounded_view_tag_of<T>` selects `BoundedView` exactly when `View<T>` and `BoundedRange<T>`
hold, `View` exactly when `View<T>` holds and `BoundedRange<T>` does not, `Range` exactly
when `Range<T>` holds and `View<T>` does not, and no concept exactly when `Range<T>` does
not hold; the selected concept and all concepts listed after it are satisfied and no
concept listed before it is, and when none is selected none of the list is satisfied. -/
theorem bounded_view_tag_of_selects (E : Env) (T : CppType) :
    (bounded_view_tag_of E T = some BoundedViewConcept ↔
      View E T = true ∧ BoundedRange E T = true) ∧
    (bounded_view_tag_of E T = some ViewConcept ↔
      View E T = true ∧ BoundedRange E T = false) ∧
    (bounded_view_tag_of E T = some RangeConcept ↔
      Range E T = true ∧ View E T = false) ∧
    (bounded_view_tag_of E T = none ↔ Range E T = false) ∧
    (∀ c, bounded_view_tag_of E T = some c →
      ∃ before after, bounded_view_tag_of_concepts = before ++ c :: after ∧
        (∀ d ∈ c :: after, is_satisfied_by E d [T] = true) ∧
        (∀ d ∈ before, is_satisfied_by E d [T] = false)) ∧
    (bounded_view_tag_of E T = none →
      ∀ d ∈ bounded_view_tag_of_concepts, is_satisfied_by E d [T] = false) := by
  have hVR := View_Range E T
  have hsel := tag_of_selected E bounded_view_tag_of_concepts [T]
    (bounded_view_tag_of_concepts_pairwise E T)
  refine ⟨?_, ?_, ?_, ?_, hsel, ?_⟩
  all_goals
    simp only [bounded_view_tag_of, tag_of, bounded_view_tag_of_concepts, List.find?,
      is_satisfied_by, BoundedView]
    cases hV : View E T <;> cases hB : BoundedRange E T <;> cases hR : Range E T <;>
      simp_all

/-- C4, on an example: in the example environment `bounded_view_tag_of` selects
`BoundedView` for the view `int_view`, and `Range` for `std::initializer_list<int>`, which
is a range and not a view. -/
theorem bounded_view_tag_of_selects_witness :
    bounded_view_tag_of stdEnv int_view = some BoundedViewConcept ∧
    bounded_view_tag_of stdEnv (initializer_list int) = some RangeConcept := by
  have h1 := (bounded_view_tag_of_selects stdEnv int_view).1
  have h2 := (bounded_view_tag_of_selects stdEnv (initializer_list int)).2.2.1
  exact ⟨h1.mpr (by decide), h2.mpr (by decide)⟩


/-! ## The view predicate -/

/-- C5, as stated, fails: in the example environment `std::initializer_list<int>` is a
`Range` and `view_like` (iterating it and its const version both give `int const &`), it
is `Movable` and `DefaultConstructible` and `enable_view` is not specialised for it, and
yet it is not a `View`, because `detail::view_predicate_` is specialised to `false` for
every `std::initializer_list`. -/
theorem view_default_counterexample :
    ¬ (Range stdEnv (initializer_list int) = true →
        (view_like stdEnv (initializer_list int) = true ∨
          stdEnv.DerivedFrom (initializer_list int) view_base = true) →
        View stdEnv (initializer_list int) = true) ∧
    stdEnv.Movable (initializer_list int) = true ∧
    stdEnv.DefaultConstructible (initializer_list int) = true ∧
    stdEnv.enable_view (initializer_list int) = none := by
  decide

/-- C5, amended: for every type `T` that matches none of the five explicit specialisations
of `detail::view_predicate_` and for which `enable_view<T>` is not a trait, if `T` is a
`Range`, `Movable` and `DefaultConstructible`, and either `view_like<T>` holds or `T` is
derived from `view_base`, then `View<T>` holds. -/
theorem view_default (E : Env) (T : CppType)
    (hs : view_predicate_specialized T = false) (he : E.enable_view T = none)
    (hR : Range E T = true) (hM : E.Movable T = true)
    (hD : E.DefaultConstructible T = true)
    (h : view_like E T = true ∨ E.DerivedFrom T view_base = true) :
    View E T = true := by
  have hp : view_predicate_ E T = true := by
    cases T <;> simp_all [view_predicate_, view_predicate_specialized]
  simp [View, hR, hM, hD, hp]

/-- C5, amended, on an example: `int_view` of the example environment. -/
theorem view_default_witness : View stdEnv int_view = true :=
  view_default stdEnv int_view (by decide) (by decide) (by decide) (by decide) (by decide)
    (by decide)

/-- C6, as stated, fails: once the program specialises
`enable_view<std::initializer_list<int>>` to `std::true_type`, that type is a `Range`,
`Movable` and `DefaultConstructible` with `enable_view` a trait of value `true`, and yet
`detail::view_predicate_` is `false` for it and it is not a `View`. -/
theorem enable_view_overrides_counterexample :
    enableViewEnv.enable_view (initializer_list int) = some true ∧
    view_predicate_ enableViewEnv (initializer_list int) = false ∧
    Range enableViewEnv (initializer_list int) = true ∧
    enableViewEnv.Movable (initializer_list int) = true ∧
    enableViewEnv.DefaultConstructible (initializer_list int) = true ∧
    View enableViewEnv (initializer_list int) = false := by
  decide

/-- C6, amended: for every type `T` that matches none of the five explicit
specialisations of `detail::view_predicate_` and for which `enable_view<T>` is a trait of
boolean value `b`, `detail::view_predicate_<T>::value` is `b`, whatever `view_like<T>` and
`DerivedFrom<T, view_base>` are, and `View<T>` holds iff `Range<T>`, `Movable<T>`,
`DefaultConstructible<T>` and `b`. -/
theorem enable_view_overrides (E : Env) (T : CppType) (b : Bool)
    (hs : view_predicate_specialized T = false) (he : E.enable_view T = some b) :
    view_predicate_ E T = b ∧
    (View E T = true ↔
      Range E T = true ∧ E.Movable T = true ∧ E.DefaultConstructible T = true ∧ b = true) := by
  have hp : view_predicate_ E T = b := by
    cases T <;> simp_all [view_predicate_, view_predicate_specialized]
  refine ⟨hp, ?_⟩
  simp only [View, hp, Bool.and_eq_true]
  tauto

/-- C6, amended, on an example: `enable_view<int_view>` specialised to `std::false_type`
switches the view predicate off although `int_view` is `view_like` and derived from
`view_base`, and `int_view` is then not a `View`. -/
theorem enable_view_overrides_witness :
    view_like enableViewEnv int_view = true ∧
    enableViewEnv.DerivedFrom int_view view_base = true ∧
    view_predicate_ enableViewEnv int_view = false ∧
    View enableViewEnv int_view = false := by
  have h := enable_view_overrides enableViewEnv int_view false (by decide) (by decide)
  refine ⟨by decide, by decide, h.1, ?_⟩
  cases hV : View enableViewEnv int_view
  · rfl
  · exact absurd (h.2.mp hV).2.2.2 (by decide)


/-! ## Indirect relations -/

theorem iter_args_lists_pair (E : Env) (I0 I1 v0 r0 c0 v1 r1 c1 : CppType)
    (hv0 : E.value_type_t I0 = some v0) (hr0 : E.reference_t I0 = some r0)
    (hc0 : E.iter_common_reference_t I0 = some c0)
    (hv1 : E.value_type_t I1 = some v1) (hr1 : E.reference_t I1 = some r1)
    (hc1 : E.iter_common_reference_t I1 = some c1) :
    iter_args_lists_ E [I0, I1] =
      some [[add_lvalue_reference v0, add_lvalue_reference v1],
        [add_lvalue_reference v0, r1],
        [r0, add_lvalue_reference v1],
        [r0, r1],
        [c0, c1]] := by
  simp [iter_args_lists_, meta_transform, readable_types_, meta_cartesian_product,
    hv0, hr0, hc0, hv1, hr1, hc1]

theorem IndirectRelation_eq_spec (E : Env) (C I0 I1 : CppType) :
    IndirectRelation E C I0 I1 = IndirectRelation_spec E C I0 I1 := by
  rw [Bool.eq_iff_iff]
  simp only [IndirectRelation, indirect_invocable_, iter_map_reduce_fn_, iter_args_lists_,
    meta_transform, readable_types_, IndirectRelation_spec, Relation_on]
  cases hv0 : E.value_type_t I0 <;> cases hr0 : E.reference_t I0 <;>
    cases hc0 : E.iter_common_reference_t I0 <;> cases hv1 : E.value_type_t I1 <;>
    cases hr1 : E.reference_t I1 <;> cases hc1 : E.iter_common_reference_t I1 <;>
    simp [holds, meta_cartesian_product, meta_strict_and, is_satisfied_by, Readable, hv0,
      hr0, hv1, hr1]
  tauto

/-- C7: `IndirectRelation<C, I0, I1>` holds iff `Readable<I0>`, `Readable<I1>` and
`CopyConstructible<C>` hold and `Relation<C &, a, b>` holds of the five argument pairs
`(value_type_t<I0> &, value_type_t<I1> &)`, `(value_type_t<I0> &, reference_t<I1>)`,
`(reference_t<I0>, value_type_t<I1> &)`, `(reference_t<I0>, reference_t<I1>)` and
`(iter_common_reference_t<I0>, iter_common_reference_t<I1>)`; these five, in this order,
are the argument lists the concept is mapped over; and `I1` defaults to `I0`. -/
theorem IndirectRelation_iff_five_relations (E : Env) (C I0 I1 : CppType) :
    (IndirectRelation E C I0 I1 = true ↔ IndirectRelation_spec E C I0 I1 = true) ∧
    (IndirectRelation_default E C I0 = true ↔ IndirectRelation_spec E C I0 I0 = true) ∧
    (∀ ls, iter_args_lists_ E [I0, I1] = some ls →
      ∃ v0 r0 c0 v1 r1 c1,
        E.value_type_t I0 = some v0 ∧ E.reference_t I0 = some r0 ∧
        E.iter_common_reference_t I0 = some c0 ∧
        E.value_type_t I1 = some v1 ∧ E.reference_t I1 = some r1 ∧
        E.iter_common_reference_t I1 = some c1 ∧
        ls = [[add_lvalue_reference v0, add_lvalue_reference v1],
          [add_lvalue_reference v0, r1],
          [r0, add_lvalue_reference v1],
          [r0, r1],
          [c0, c1]]) := by
  refine ⟨by rw [IndirectRelation_eq_spec], ?_, ?_⟩
  · rw [IndirectRelation_default, IndirectRelation_eq_spec]
  · intro ls hls
    cases hv0 : E.value_type_t I0 <;> cases hr0 : E.reference_t I0 <;>
      cases hc0 : E.iter_common_reference_t I0 <;> cases hv1 : E.value_type_t I1 <;>
      cases hr1 : E.reference_t I1 <;> cases hc1 : E.iter_common_reference_t I1 <;>
      simp_all [iter_args_lists_, meta_transform, readable_types_, meta_cartesian_product]

/-- C7, on an example: in the example environment the comparison `int_less` is an
indirect relation over `int *` and `int const *`, and over `int *` alone. -/
theorem IndirectRelation_iff_five_relations_witness :
    IndirectRelation stdEnv int_less (ptr int) (ptr (const int)) = true ∧
    IndirectRelation_default stdEnv int_less (ptr int) = true := by
  have h := IndirectRelation_iff_five_relations stdEnv int_less (ptr int) (ptr (const int))
  have h0 := IndirectRelation_iff_five_relations stdEnv int_less (ptr int) (ptr int)
  exact ⟨h.1.mpr (by decide), h0.2.1.mpr (by decide)⟩

/-! ## Single-pass iterators -/

/-- C8: for every type that satisfies `Iterator`, exactly one of `SinglePass` and
`ForwardIterator` holds; for a type that does not satisfy `Iterator`, neither holds. -/
theorem SinglePass_xor_ForwardIterator (E : Env) (I : CppType) :
    (Iterator E I = true →
      (SinglePass E I = true ∧ ForwardIterator E I = false) ∨
      (SinglePass E I = false ∧ ForwardIterator E I = true)) ∧
    (Iterator E I = false → SinglePass E I = false ∧ ForwardIterator E I = false) := by
  have hF : ForwardIterator E I = true → Iterator E I = true :=
    fun h => InputIterator_Iterator E I (ForwardIterator_InputIterator E I h)
  simp only [SinglePass]
  cases h1 : Iterator E I <;> cases h2 : ForwardIterator E I <;> simp_all

/-- C8, on examples: in the example environment `int *` is an iterator and a forward
iterator and not single-pass; `input_cursor` is an iterator and single-pass and not a
forward iterator; and `int`, which is no iterator, is neither. -/
theorem SinglePass_xor_ForwardIterator_witness :
    (Iterator stdEnv (ptr int) = true ∧ SinglePass stdEnv (ptr int) = false ∧
      ForwardIterator stdEnv (ptr int) = true) ∧
    (Iterator stdEnv input_cursor = true ∧ SinglePass stdEnv input_cursor = true ∧
      ForwardIterator stdEnv input_cursor = false) ∧
    (SinglePass stdEnv int = false ∧ ForwardIterator stdEnv int = false) := by
  have h1 := (SinglePass_xor_ForwardIterator stdEnv (ptr int)).1 (by decide)
  have h2 := (SinglePass_xor_ForwardIterator stdEnv input_cursor).1 (by decide)
  have h3 := (SinglePass_xor_ForwardIterator stdEnv int).2 (by decide)
  refine ⟨⟨by decide, ?_⟩, ⟨by decide, ?_⟩, h3⟩
  · rcases h1 with h | h
    · exact absurd h.2 (by decide)
    · exact h
  · rcases h2 with h | h
    · exact h
    · exact absurd h.1 (by decide)


/-! ## Opting out of `SizedRange` -/

theorem uncvref_t_add_lvalue_reference (T : CppType) :
    uncvref_t (add_lvalue_reference T) = uncvref_t T := by
  cases T <;> simp [uncvref_t, remove_reference, remove_cv, add_lvalue_reference]

theorem uncvref_t_add_const (T : CppType) : uncvref_t (add_const T) = uncvref_t T := by
  cases T <;> simp [uncvref_t, remove_reference, remove_cv, add_const]

theorem SizedRange_disabled (E : Env) (T : CppType)
    (h : E.disable_sized_range (uncvref_t T) = true) :
    SizedRange E T = false ∧ SizedView E T = false ∧
    sized_range_tag_of E T ≠ some SizedRangeConcept := by
  have hS : SizedRange E T = false := by simp [SizedRange, h]
  refine ⟨hS, by simp [SizedView, hS], ?_⟩
  simp only [sized_range_tag_of, tag_of, List.find?, is_satisfied_by, hS]
  cases Range E T <;> simp

/-- C9: the sized-range opt-out is absolute and cv-ref-insensitive.  For every type `T`
with `disable_sized_range<uncvref_t<T>>::value` true, whatever `size(t)` is, `SizedRange<T>`
is false, `SizedView<T>` is false and `sized_range_tag_of<T>` does not select `SizedRange`;
and `T &`, `T const` and `T const &` have the `uncvref_t` of `T`, so the same holds of
them. -/
theorem disable_sized_range_opts_out (E : Env) (T : CppType)
    (h : E.disable_sized_range (uncvref_t T) = true) :
    ∀ U ∈ [T, add_lvalue_reference T, add_const T, add_lvalue_reference (add_const T)],
      uncvref_t U = uncvref_t T ∧
      SizedRange E U = false ∧ SizedView E U = false ∧
      sized_range_tag_of E U ≠ some SizedRangeConcept := by
  intro U hU
  have hu : uncvref_t U = uncvref_t T := by
    simp only [List.mem_cons, List.mem_singleton, List.not_mem_nil, or_false] at hU
    rcases hU with rfl | rfl | rfl | rfl
    · rfl
    · exact uncvref_t_add_lvalue_reference T
    · exact uncvref_t_add_const T
    · rw [uncvref_t_add_lvalue_reference, uncvref_t_add_const]
  exact ⟨hu, SizedRange_disabled E U (by rw [hu]; exact h)⟩

/-- C9, on an example: `int_view` has a `size` of the integral type `std::size_t` and is a
`SizedRange` in the example environment; once `disable_sized_range<int_view>` is true,
neither `int_view` nor `int_view const &` is a `SizedRange` or a `SizedView`, and
`sized_range_tag_of` selects `Range` for it. -/
theorem disable_sized_range_opts_out_witness :
    optOutEnv.size (add_lvalue_reference int_view) = some size_t ∧
    optOutEnv.Integral size_t = true ∧
    SizedRange stdEnv int_view = true ∧
    SizedRange optOutEnv int_view = false ∧
    SizedView optOutEnv int_view = false ∧
    SizedRange optOutEnv (lref (const int_view)) = false ∧
    sized_range_tag_of optOutEnv int_view = some RangeConcept := by
  have h := disable_sized_range_opts_out optOutEnv int_view (by decide)
  have h0 := h int_view (by decide)
  have h3 := h (lref (const int_view)) (by decide)
  exact ⟨by decide, by decide, by decide, h0.2.1, h0.2.2.1, h3.2.1, by decide⟩


/-! ## `SizedSentinel` of reverse iterators -/

theorem reverse_depth_remove_cv (T : CppType) :
    reverse_depth (remove_cv T) = reverse_depth T := by
  induction T <;> simp_all [remove_cv, reverse_depth]

theorem reverse_depth_uncvref_t (T : CppType) :
    reverse_depth (uncvref_t T) = reverse_depth T := by
  unfold uncvref_t
  rw [reverse_depth_remove_cv]
  cases T <;> simp [remove_reference, reverse_depth]

theorem SizedSentinel_within_eq (E : Env) (n : Nat) :
    ∀ S I : CppType, min (reverse_depth S) (reverse_depth I) < n →
      SizedSentinel_within E n S I = some (SizedSentinel E S I) := by
  induction n with
  | zero =>
    intro S I h
    exact absurd h (Nat.not_lt_zero _)
  | succ n ih =>
    intro S I h
    have hS := reverse_depth_uncvref_t S
    have hI := reverse_depth_uncvref_t I
    rw [SizedSentinel_unfold]
    simp only [SizedSentinel_within]
    split
    · rename_i S' I' hS' hI'
      rw [hS'] at hS
      rw [hI'] at hI
      simp only [reverse_depth] at hS hI
      rw [hS', hI', disable_sized_sentinel_reverse]
      have hlt : min (reverse_depth I') (reverse_depth S') < n := by
        rw [Nat.min_def] at h ⊢
        split at h <;> split <;> omega
      rw [ih I' S' hlt]
      split <;> rfl
    · rename_i S' I' hne
      rw [disable_sized_sentinel_primary E _ _ hne]
      simp

/-- C10, as stated, fails in two ways.  Where the workaround is not compiled in: against
libc++ 4.0, where `_LIBCPP_VERSION` is 4000, with `slow_iterator` opted out of
`SizedSentinel`, two `std::reverse_iterator<slow_iterator>` model `SizedSentinel` although
their base iterators do not.  Where it is compiled in: against libstdc++, once the program
declares its own explicit specialisation of `disable_sized_sentinel` for the two reverse
iterators, deriving from `std::false_type`, that specialisation is selected over the
partial one of the header, and again the reverse iterators model `SizedSentinel` although
their base iterators do not. -/
theorem reverse_iterator_SizedSentinel_counterexample :
    (reverse_iterator_workaround (slowEnv false (some 4000)) = false ∧
      SizedSentinel (slowEnv false (some 4000)) (reverse_iterator slow_iterator)
        (reverse_iterator slow_iterator) = true ∧
      SizedSentinel (slowEnv false (some 4000)) slow_iterator slow_iterator = false) ∧
    (reverse_iterator_workaround slowReverseEnv = true ∧
      SizedSentinel slowReverseEnv (reverse_iterator slow_iterator)
        (reverse_iterator slow_iterator) = true ∧
      SizedSentinel slowReverseEnv slow_iterator slow_iterator = false) := by
  have h1 := SizedSentinel_within_eq (slowEnv false (some 4000)) 2
    (reverse_iterator slow_iterator) (reverse_iterator slow_iterator) (by decide)
  have h2 := SizedSentinel_within_eq (slowEnv false (some 4000)) 1
    slow_iterator slow_iterator (by decide)
  have e1 : SizedSentinel_within (slowEnv false (some 4000)) 2
      (reverse_iterator slow_iterator) (reverse_iterator slow_iterator) = some true := by
    decide
  have e2 : SizedSentinel_within (slowEnv false (some 4000)) 1
      slow_iterator slow_iterator = some false := by
    decide
  rw [e1] at h1
  rw [e2] at h2
  have h3 := SizedSentinel_within_eq slowReverseEnv 2
    (reverse_iterator slow_iterator) (reverse_iterator slow_iterator) (by decide)
  have h4 := SizedSentinel_within_eq slowReverseEnv 1
    slow_iterator slow_iterator (by decide)
  have e3 : SizedSentinel_within slowReverseEnv 2
      (reverse_iterator slow_iterator) (reverse_iterator slow_iterator) = some true := by
    decide
  have e4 : SizedSentinel_within slowReverseEnv 1
      slow_iterator slow_iterator = some false := by
    decide
  rw [e3] at h3
  rw [e4] at h4
  exact ⟨⟨by decide, (Option.some.inj h1).symm, (Option.some.inj h2).symm⟩,
    ⟨by decide, (Option.some.inj h3).symm, (Option.some.inj h4).symm⟩⟩

/-- C10, amended: where the workaround is compiled in, that is where `__GLIBCXX__` is
defined or `_LIBCPP_VERSION` is defined and at most 3900, and no specialisation of
`disable_sized_sentinel` declared elsewhere is selected over the partial one of the header
for the two reverse iterators, `SizedSentinel<std::reverse_iterator<S>,
std::reverse_iterator<I>>` holds only if the base iterators model `SizedSentinel<I, S>`;
and, in every case, the mutually recursive definition is well-founded on the nesting depth
of `reverse_iterator`: more nested instantiations than the smaller depth of `S` and `I`
decide `SizedSentinel<S, I>`. -/
theorem reverse_iterator_SizedSentinel (E : Env) (S I : CppType) :
    (reverse_iterator_workaround E = true →
      E.disable_sized_sentinel_specialized (reverse_iterator S) (reverse_iterator I) = false →
      SizedSentinel E (reverse_iterator S) (reverse_iterator I) = true →
      SizedSentinel E I S = true) ∧
    (∀ n, min (reverse_depth S) (reverse_depth I) < n →
      SizedSentinel_within E n S I = some (SizedSentinel E S I)) ∧
    reverse_depth I + reverse_depth S <
      reverse_depth (reverse_iterator S) + reverse_depth (reverse_iterator I) := by
  refine ⟨?_, fun n h => SizedSentinel_within_eq E n S I h, ?_⟩
  · intro hw hs h
    rw [SizedSentinel_unfold] at h
    have hu : ∀ T : CppType, uncvref_t (reverse_iterator T) = reverse_iterator T :=
      fun _ => rfl
    rw [hu, hu, disable_sized_sentinel_reverse, hw, hs] at h
    simp only [Bool.not_false, Bool.and_self, if_true, Bool.not_not, Bool.and_eq_true] at h
    exact h.2
  · simp only [reverse_depth]
    omega

/-- C10, amended, on an example: against libstdc++, with no specialisation declared by the
program, two `std::reverse_iterator<int *>` model `SizedSentinel`, and so do their base
iterators, decided within two nested instantiations; with `slow_iterator` opted out,
`std::reverse_iterator<slow_iterator>` is opted out with it. -/
theorem reverse_iterator_SizedSentinel_witness :
    reverse_iterator_workaround stdEnv = true ∧
    stdEnv.disable_sized_sentinel_specialized (reverse_iterator (ptr int))
      (reverse_iterator (ptr int)) = false ∧
    SizedSentinel stdEnv (reverse_iterator (ptr int)) (reverse_iterator (ptr int)) = true ∧
    SizedSentinel stdEnv (ptr int) (ptr int) = true ∧
    SizedSentinel (slowEnv true none) (reverse_iterator slow_iterator)
      (reverse_iterator slow_iterator) = false := by
  have hw : reverse_iterator_workaround stdEnv = true := by decide
  have hs : stdEnv.disable_sized_sentinel_specialized (reverse_iterator (ptr int))
      (reverse_iterator (ptr int)) = false := by decide
  have h := reverse_iterator_SizedSentinel stdEnv (ptr int) (ptr int)
  have h1 := (reverse_iterator_SizedSentinel stdEnv (reverse_iterator (ptr int))
    (reverse_iterator (ptr int))).2.1 2 (by decide)
  have e1 : SizedSentinel_within stdEnv 2 (reverse_iterator (ptr int))
      (reverse_iterator (ptr int)) = some true := by
    decide
  rw [e1] at h1
  have hr := (Option.some.inj h1).symm
  have h2 := (reverse_iterator_SizedSentinel (slowEnv true none)
    (reverse_iterator slow_iterator) (reverse_iterator slow_iterator)).2.1 2 (by decide)
  have e2 : SizedSentinel_within (slowEnv true none) 2 (reverse_iterator slow_iterator)
      (reverse_iterator slow_iterator) = some false := by
    decide
  rw [e2] at h2
  exact ⟨hw, hs, hr, h.1 hw hs hr, (Option.some.inj h2).symm⟩

/-! ## View concepts -/

theorem stdEnv_ContiguousRange_int_view : ContiguousRange stdEnv int_view = true := by
  have hi : stdEnv.iterator_t int_view = some (ptr int) := by decide
  rw [ContiguousRange, RandomAccessRange, hi, holds, stdEnv_RandomAccessIterator_int_ptr]
  decide

/-- C11: every view concept is exactly the conjunction of `View` and the corresponding
range concept.  `OutputView<T, V>` holds iff `View<T>` and `OutputRange<T, V>`;
`InputView`, `ForwardView`, `BidirectionalView`, `RandomAccessView`, `BoundedView` and
`SizedView` likewise; and `ContiguousView<T>`, defined as
`RandomAccessView<T> && ContiguousRange<T>`, holds iff `View<T>` and `ContiguousRange<T>`. -/
theorem view_concepts_are_View_and_range (E : Env) (T V : CppType) :
    (OutputView E T V = true ↔ View E T = true ∧ OutputRange E T V = true) ∧
    (InputView E T = true ↔ View E T = true ∧ InputRange E T = true) ∧
    (ForwardView E T = true ↔ View E T = true ∧ ForwardRange E T = true) ∧
    (BidirectionalView E T = true ↔ View E T = true ∧ BidirectionalRange E T = true) ∧
    (RandomAccessView E T = true ↔ View E T = true ∧ RandomAccessRange E T = true) ∧
    (BoundedView E T = true ↔ View E T = true ∧ BoundedRange E T = true) ∧
    (SizedView E T = true ↔ View E T = true ∧ SizedRange E T = true) ∧
    (ContiguousView E T = true ↔ View E T = true ∧ ContiguousRange E T = true) := by
  have hC := ContiguousRange_RandomAccessRange E T
  simp only [OutputView, InputView, ForwardView, BidirectionalView, RandomAccessView,
    BoundedView, SizedView, ContiguousView, Bool.and_eq_true]
  tauto

/-- C11, on an example: in the example environment `int_view` is a `View` and a
`ContiguousRange`, hence a `ContiguousView`, a `RandomAccessView` and a `SizedView`;
`std::initializer_list<int>` is a `ContiguousRange` too and no `View`, hence no
`ContiguousView`. -/
theorem view_concepts_are_View_and_range_witness :
    ContiguousView stdEnv int_view = true ∧
    RandomAccessView stdEnv int_view = true ∧
    SizedView stdEnv int_view = true ∧
    OutputView stdEnv int_view int = true ∧
    ContiguousView stdEnv (initializer_list int) = false := by
  have h := view_concepts_are_View_and_range stdEnv int_view int
  have hV : View stdEnv int_view = true := by decide
  have hC := stdEnv_ContiguousRange_int_view
  have hR := ContiguousRange_RandomAccessRange stdEnv int_view hC
  have hl := view_concepts_are_View_and_range stdEnv (initializer_list int) int
  refine ⟨h.2.2.2.2.2.2.2.mpr ⟨hV, hC⟩, h.2.2.2.2.1.mpr ⟨hV, hR⟩,
    h.2.2.2.2.2.2.1.mpr ⟨hV, by decide⟩, h.1.mpr ⟨hV, by decide⟩, ?_⟩
  cases hcv : ContiguousView stdEnv (initializer_list int)
  · rfl
  · exact absurd (hl.2.2.2.2.2.2.2.mp hcv).1 (by decide)

end ranges
